import Mathlib

/- Formal model of the amortization-ledger engine of `controle_divida.py` and of
the persistence layer `persistence.py` from the financing-simulator repository.

Monetary values, stored as Python floats in the source, are modelled as exact
rationals; Python's `round(x, 2)` is modelled by `round2` below.  Tkinter
widgets, printing and the real HTTP transport are outside the model; remote
calls are represented by explicit outcome parameters (oracles), so that every
control path of the source that depends on a remote outcome is a function of
that parameter. -/

/- The Batteries rational-number operations are `@[irreducible]`, which keeps
`decide` from evaluating concrete ledgers; the proofs below only need them
unfolded locally. -/
attribute [local semireducible] Rat.add Rat.sub Rat.mul Rat.inv

deriving instance DecidableEq for Except

namespace FinSim

/-- Model of Python `round(x, 2)`: round the value to two decimal places.
Exact half-cent ties are idealized (the binary value of a Python float
essentially never sits exactly on a half cent, so the tie direction of the
source is an artifact of the binary representation). -/
def round2 (q : ℚ) : ℚ := ((round (100 * q) : ℤ) : ℚ) / 100

/-- Values representable with exactly two decimal places (a whole number of
cents). -/
def Is2dp (q : ℚ) : Prop := ∃ n : ℤ, q = (n : ℚ) / 100

/-- Outcome of one HTTP request in `persistence._fazer_requisicao`
(controle_divida talks to the JSON Server only through it).  HTTP errors are
represented by a fixed 400-class example; the `ok` payload is the id assigned
by the server. -/
inductive CallResult
  | ok (id : Int)
  | httpErr400
  | connRefused
  | connReset
  deriving DecidableEq

/-- Error message produced by `persistence._fazer_requisicao` for each failure
class, and the id extracted from the JSON body on success (source lines
82-100 of persistence.py). -/
def fazerRequisicao : CallResult → Except String Int
  | .ok id => .ok id
  | .httpErr400 => .error "Erro HTTP 400: Bad Request"
  | .connRefused =>
      .error "Servidor não está disponível. Inicie o JSON Server com 'pnpm start' na pasta servidor/"
  | .connReset => .error "Servidor fechou a conexão. Tente novamente."

/-- Oracle that always reports the server as unreachable; used where the code
path never consults the transport (offline mode). -/
def noOracle : Nat → CallResult := fun _ => .connRefused

/-- One row of the local ledger: the dict built in
`ControleDividaApp.registrar_pagamento` (mes, data, valor, juros, amort,
saldo, status, and the optional server_id key). -/
structure Registro where
  mes : Int
  data : String
  valor : ℚ
  juros : ℚ
  amort : ℚ
  saldo : ℚ
  status : String
  serverId : Option Int := none
  deriving DecidableEq

/-- In-memory state of `ControleDividaApp`: divida_inicial, taxa, registros,
total_pago, saldo_restante. -/
structure AppState where
  dividaInicial : ℚ
  taxa : ℚ
  registros : List Registro
  totalPago : ℚ
  saldoRestante : ℚ
  deriving DecidableEq

/-- State right after `__init__` (before any server load): empty ledger,
total 0, balance = initial debt. -/
def initState (principal taxa : ℚ) : AppState :=
  ⟨principal, taxa, [], 0, principal⟩

/-- Core of `ControleDividaApp.registrar_pagamento` (source lines 507-542 and
559-594): refuse when the balance is already non-positive; otherwise compute
interest, amortization and the new balance, clamp an overpayment, update the
aggregates, optionally attempt the remote create (exactly one request, the
first oracle call), and append the new registro.  Returns the new state and
whether the non-fatal sync warning dialog was shown. -/
def registrarPagamento (s : AppState) (online : Bool) (oracle : Nat → CallResult)
    (valorPago : ℚ) (dataPag status : String) : AppState × Bool :=
  if s.saldoRestante ≤ 0 then (s, false)
  else
    let saldoAnterior := s.saldoRestante
    let juros := round2 (saldoAnterior * s.taxa)
    let amortizacao := round2 (valorPago - juros)
    let novoSaldo := round2 (saldoAnterior - amortizacao)
    -- lines 518-524: the overpayment clamp
    let amortFinal := if novoSaldo < 0 then round2 (amortizacao + novoSaldo) else amortizacao
    let valorFinal := if novoSaldo < 0 then round2 (valorPago + novoSaldo) else valorPago
    let saldoFinal := if novoSaldo < 0 then 0 else novoSaldo
    -- lines 559-592: remote create, attempted exactly once, failure caught
    let createRes := if online then some (fazerRequisicao (oracle 0)) else none
    let serverId : Option Int :=
      match createRes with
      | some (.ok id) => some id
      | _ => none
    let warn : Bool :=
      match createRes with
      | some (.error _) => true
      | _ => false
    let reg : Registro :=
      ⟨(s.registros.length : Int) + 1, dataPag, valorFinal, juros, amortFinal, saldoFinal,
        status, serverId⟩
    ({ s with
        registros := s.registros ++ [reg],
        totalPago := round2 (s.totalPago + max 0 valorFinal),
        saldoRestante := saldoFinal }, warn)

/-- One iteration of the loop in
`ControleDividaApp._recalcular_agregado_e_table` (source lines 830-848):
recompute juros/amort/saldo of a stored registro from the running balance,
clamping (and overwriting the stored valor) on overpayment. -/
def recalcEntry (taxa saldoAnterior : ℚ) (reg : Registro) (i : Int) : Registro :=
  let juros := round2 (saldoAnterior * taxa)
  let amort := round2 (reg.valor - juros)
  let novoSaldo := round2 (saldoAnterior - amort)
  if novoSaldo < 0 then
    { reg with mes := i, valor := round2 (reg.valor + novoSaldo), juros := juros,
               amort := round2 (amort + novoSaldo), saldo := 0 }
  else
    { reg with mes := i, juros := juros, amort := amort, saldo := novoSaldo }

/-- Full-replay loop of `_recalcular_agregado_e_table`: threads total_pago and
saldo_restante through the stored registros, rewriting each one; returns the
final (total_pago, saldo_restante, registros). -/
def recalcLoop (taxa : ℚ) (totalPago saldo : ℚ) (i : Int) :
    List Registro → ℚ × ℚ × List Registro
  | [] => (totalPago, saldo, [])
  | reg :: rest =>
    let e := recalcEntry taxa saldo reg i
    let r := recalcLoop taxa (round2 (totalPago + max 0 e.valor)) e.saldo (i + 1) rest
    (r.1, r.2.1, e :: r.2.2)

/-- `ControleDividaApp._recalcular_agregado_e_table` (source lines 821-852):
reset the aggregates and replay every stored registro in order. -/
def recalcular (s : AppState) : AppState :=
  let r := recalcLoop s.taxa 0 s.dividaInicial 1 s.registros
  { s with registros := r.2.2, totalPago := r.1, saldoRestante := r.2.1 }

/-- `ControleDividaApp.desfazer_ultimo` (source lines 678-697): pop the last
registro (no-op on an empty ledger), attempt the remote delete (its outcome is
ignored for local state, hence the unused parameter), then recompute
everything from scratch. -/
def desfazerUltimo (s : AppState) (remoteDeleteOk : Bool) : AppState :=
  if s.registros.isEmpty then s
  else recalcular { s with registros := s.registros.dropLast }

/-- Local ledger fields after a full clear (shared by `reiniciar` and the
success path of `limpar_historico`): empty registros, total 0, balance back
to the initial debt. -/
def clearedState (s : AppState) : AppState :=
  { s with registros := [], totalPago := 0, saldoRestante := s.dividaInicial }

/-- `ControleDividaApp.reiniciar` (source lines 699-729): after confirmation,
try the remote bulk delete when online, catching any error with a warning
dialog, and unconditionally clear the local state.  Returns the new state and
whether the warning dialog was shown. -/
def reiniciar (s : AppState) (confirmed online : Bool)
    (remote : Except String Unit) : AppState × Bool :=
  if !confirmed then (s, false)
  else
    let warned :=
      if online then
        match remote with
        | .ok _ => false
        | .error _ => true
      else false
    (clearedState s, warned)

/-- Python `pat in s` substring test, on character lists. -/
def startsWithL : List Char → List Char → Bool
  | [], _ => true
  | _ :: _, [] => false
  | p :: ps, c :: cs => p == c && startsWithL ps cs

/-- Python `pat in s` substring test (scans every suffix). -/
def containsL (pat : List Char) : List Char → Bool
  | [] => pat.isEmpty
  | c :: rest => startsWithL pat (c :: rest) || containsL pat rest

/-- Python `pat in s` on strings. -/
def containsSubstr (s pat : String) : Bool := containsL pat.toList s.toList

/-- Constants `MAX_RETRIES` and `RETRY_DELAY` of persistence.py. -/
def MAX_RETRIES : Nat := 3

/-- Base delay, in seconds, between delete retries (persistence.py line 20). -/
def RETRY_DELAY : ℚ := 1 / 2

/-- Loop body of `persistence.delete_registro` (source lines 175-185):
try the request; on a "fechou a conexão" failure with attempts left, sleep
`RETRY_DELAY * (tentativa + 1)` and retry; otherwise re-raise.  `remaining`
is the number of loop iterations still available (`MAX_RETRIES - tentativa`);
the 0 case is unreachable from `deleteRegistro`.  Returns the result, the
number of requests made so far plus `tentativa`, and the list of sleeps. -/
def deleteRegistroAux (oracle : Nat → CallResult) :
    Nat → Nat → Except String Unit × Nat × List ℚ
  | 0, tentativa => (.error "", tentativa, [])
  | remaining + 1, tentativa =>
    match fazerRequisicao (oracle tentativa) with
    | .ok _ => (.ok (), tentativa + 1, [])
    | .error e =>
      if containsSubstr e "fechou a conexão" && decide (tentativa < MAX_RETRIES - 1) then
        let r := deleteRegistroAux oracle remaining (tentativa + 1)
        (r.1, r.2.1, RETRY_DELAY * (tentativa + 1) :: r.2.2)
      else (.error e, tentativa + 1, [])

/-- `persistence.delete_registro` (source lines 162-185): up to `MAX_RETRIES`
attempts, retried only when the error message signals a closed connection,
with a linearly growing delay.  Returns (result, number of requests made,
sleep durations). -/
def deleteRegistro (oracle : Nat → CallResult) : Except String Unit × Nat × List ℚ :=
  deleteRegistroAux oracle MAX_RETRIES 0

/-- Outcome of handling one remote record inside
`persistence.delete_todos_registros`: the record may lack an "id" (then it is
skipped), or its delete (already wrapped in the retry loop) ends in success
or in a `PersistenceError` with the given message. -/
inductive RecOutcome
  | noId
  | delOk
  | delErr (msg : String)
  deriving DecidableEq

/-- `persistence.delete_todos_registros` (source lines 188-223): collect the
per-record failures; raise only when every listed record failed (erros == total),
otherwise return silently — a strict partial failure is NOT raised. -/
def deleteTodosRegistros (outcomes : List RecOutcome) : Except String Unit :=
  let erros := outcomes.filterMap fun o =>
    match o with
    | .delErr m => some m
    | _ => none
  if erros.isEmpty then .ok ()
  else if erros.length < outcomes.length then .ok ()
  else .error ("Falha ao deletar todos os registros. Primeira falha: " ++ (erros.head?.getD ""))

/-- What `ControleDividaApp.limpar_historico` reports to the user. -/
inductive LimparReport
  | offline
  | serverDown
  | cancelled
  | success
  | connError (msg : String)
  | parcialAviso (msg : String)
  | genericError (msg : String)
  deriving DecidableEq

/-- `ControleDividaApp.limpar_historico` (source lines 731-819): refuse
offline, re-probe the server, confirm, then bulk-delete remotely; only when
`delete_todos_registros` returns without raising is the local state cleared.
A raised error is classified by substring tests on its message; every error
branch leaves the local state untouched. -/
def limparHistorico (s : AppState) (online probeOk confirmed : Bool)
    (outcomes : List RecOutcome) : AppState × LimparReport :=
  if !online then (s, .offline)
  else if !probeOk then (s, .serverDown)
  else if !confirmed then (s, .cancelled)
  else
    match deleteTodosRegistros outcomes with
    | .ok _ => (clearedState s, .success)
    | .error msg =>
      if containsSubstr msg "não está disponível" || containsSubstr msg "Servidor"
          || containsSubstr msg "fechou a conexão" then
        (s, .connError msg)
      else if containsSubstr msg "Alguns registros falharam" then
        (s, .parcialAviso msg)
      else
        (s, .genericError msg)

/-- A JSON field value of a remote record, as far as Python `float(...)` is
concerned: a number, a non-numeric value that `float` rejects, or an absent
key (`dict.get` then yields the default 0.0). -/
inductive JNum
  | num (q : ℚ)
  | junk (st : String)
  | missing
  deriving DecidableEq

/-- Python `float(reg.get(key, 0.0))` as used in
`_carregar_registros_iniciais` (source lines 352-355). -/
def pyFloat : JNum → Except String ℚ
  | .num q => .ok q
  | .junk st => .error ("could not convert string to float: " ++ st)
  | .missing => .ok 0

/-- One record as listed from the JSON Server (only the keys the loader
reads). -/
structure RegServidor where
  id : Option Int
  mes : Option Int
  data : Option String
  valor : JNum
  juros : JNum
  amort : JNum
  saldo : JNum
  status : Option String
  deriving DecidableEq

/-- Conversion of one remote record to the local dict shape (source lines
349-358); raises if any monetary field cannot be converted by `float`. -/
def convRegistro (nRegs : Nat) (r : RegServidor) : Except String Registro := do
  let v ← pyFloat r.valor
  let j ← pyFloat r.juros
  let a ← pyFloat r.amort
  let sa ← pyFloat r.saldo
  .ok ⟨r.mes.getD ((nRegs : Int) + 1), r.data.getD "", v, j, a, sa,
       r.status.getD "Pago", r.id⟩

/-- Stable insertion of a record into a list sorted by `r.get("id", 0)`
ascending, placing it after existing records with a key ≤ its own. -/
def insertById (r : RegServidor) : List RegServidor → List RegServidor
  | [] => [r]
  | x :: xs => if x.id.getD 0 ≤ r.id.getD 0 then x :: insertById r xs else r :: x :: xs

/-- Python's stable `list.sort(key=lambda r: r.get("id", 0))` (source line
344). -/
def sortById (l : List RegServidor) : List RegServidor :=
  l.foldl (fun acc r => insertById r acc) []

/-- Per-record processing loop of `_carregar_registros_iniciais` (source
lines 347-361): each converted record is appended to `self.registros` before
the next one is converted, so a conversion failure leaves the records
already appended in place — the error value carries them. -/
def carregarLoop (acc : List Registro) :
    List RegServidor → Except (List Registro) (List Registro)
  | [] => .ok acc
  | r :: rest =>
    match convRegistro acc.length r with
    | .ok reg => carregarLoop (acc ++ [reg]) rest
    | .error _ => .error acc

/-- `ControleDividaApp._carregar_registros_iniciais` (source lines 332-389):
nothing happens offline; a failure while listing is caught (state untouched,
offline mode); otherwise records are sorted by id, converted and appended one
by one, and only a fully successful pass triggers the aggregate recompute.  A
conversion failure mid-loop is caught by the same handler: the registros
appended so far remain, the aggregates are NOT recomputed, and the app drops
to offline mode.  Returns the new state and the new `modo_online` flag. -/
def carregarRegistrosIniciais (s : AppState) (online : Bool)
    (listResult : Except String (List RegServidor)) : AppState × Bool :=
  if !online then (s, false)
  else
    match listResult with
    | .error _ => (s, false)
    | .ok regs =>
      if regs.isEmpty then (s, true)
      else
        match carregarLoop s.registros (sortById regs) with
        | .error kept => ({ s with registros := kept }, false)
        | .ok all =>
          if all.isEmpty then ({ s with registros := all }, true)
          else (recalcular { s with registros := all }, true)

/-- Whitespace characters removed by Python `str.strip()`. -/
def pyWhitespace (c : Char) : Bool :=
  c == ' ' || c == '\t' || c == '\n' || c == '\r'

/-- Python `str.strip()` on a character list. -/
def stripL (l : List Char) : List Char :=
  ((l.dropWhile pyWhitespace).reverse.dropWhile pyWhitespace).reverse

/-- Python `s.replace("R$", "")`: remove every (non-overlapping, left-to-right)
occurrence of the two-character currency prefix. -/
def removeRS : List Char → List Char
  | [] => []
  | [c] => [c]
  | c :: d :: rest =>
    if c = 'R' ∧ d = '$' then removeRS rest else c :: removeRS (d :: rest)

/-- Value of a digit string, most significant first. -/
def digitsToNat (l : List Char) : Nat :=
  l.foldl (fun a c => a * 10 + (c.toNat - '0'.toNat)) 0

/-- Unsigned part of Python `float(...)` restricted to plain decimal literals
(digits with at most one dot); scientific notation, inf/nan and numeric
underscores are outside the model (none can be produced by the call site,
whose input is digits, dots and commas after cleaning). -/
def pyFloatCore (l : List Char) : Option ℚ :=
  if l.contains '.' then
    let ip := l.takeWhile (· ≠ '.')
    let fp := (l.dropWhile (· ≠ '.')).tail
    if fp.contains '.' then none
    else if ip.isEmpty && fp.isEmpty then none
    else if ip.all (·.isDigit) && fp.all (·.isDigit) then
      some ((digitsToNat ip : ℚ) + (digitsToNat fp : ℚ) / (10 : ℚ) ^ fp.length)
    else none
  else if !l.isEmpty && l.all (·.isDigit) then some (digitsToNat l)
  else none

/-- Python `float(...)` on the cleaned text, with an optional sign. -/
def pyFloatL (l : List Char) : Option ℚ :=
  if l.head? = some '-' then (pyFloatCore l.tail).map Neg.neg
  else if l.head? = some '+' then pyFloatCore l.tail
  else pyFloatCore l

/-- `ControleDividaApp._parse_valor` (source lines 424-454): strip, reject
empty input, drop "R$" and spaces, strip again, reject empty, remove every
dot (thousands separator), turn the comma into the decimal dot, convert with
`float`.  A non-positive value raises inside the same `try`, so its message
is replaced by the generic "Valor inválido" one by the `except ValueError`
handler — exactly as in the source. -/
def parseValorL (texto : List Char) : Except String ℚ :=
  let texto := stripL texto
  if texto.isEmpty then .error "Informe um valor."
  else
    let t := stripL ((removeRS texto).filter (fun c => c ≠ ' '))
    if t.isEmpty then .error "Informe um valor."
    else
      let t2 := (t.filter (fun c => c ≠ '.')).map (fun c => if c == ',' then '.' else c)
      match pyFloatL t2 with
      | none => .error "Valor inválido. Use formato: 2500 ou 2500,50"
      | some v =>
        if v ≤ 0 then .error "Valor inválido. Use formato: 2500 ou 2500,50"
        else .ok v

/-- `_parse_valor` on a Lean string. -/
def parseValor (s : String) : Except String ℚ := parseValorL s.toList

/-- LedgerEngine step exactly as the spec words it (§4.2, steps 1-4):
given `(previousBalance, rate, amountPaid)` produce
`(interest, amortization, newBalance, effectiveAmountPaid)`, with the
overpayment clamp adding the negative `newBalance` to both the amortization
and the effective payment and re-rounding both. -/
def specLedgerStep (previousBalance rate amountPaid : ℚ) : ℚ × ℚ × ℚ × ℚ :=
  let interest := round2 (previousBalance * rate)
  let amortization := round2 (amountPaid - interest)
  let newBalance := round2 (previousBalance - amortization)
  if newBalance < 0 then
    (interest, round2 (amortization + newBalance), 0, round2 (amountPaid + newBalance))
  else
    (interest, amortization, newBalance, amountPaid)

/-- A raw user payment: the data the user enters for one append. -/
structure RawPay where
  valor : ℚ
  data : String
  status : String

/-- Registro holding only the raw payment, before any recomputation (the
derived fields are overwritten by `recalcular`, which reads only `valor`). -/
def rawRegistro (p : RawPay) : Registro :=
  ⟨0, p.data, p.valor, 0, 0, 0, p.status, none⟩

/-- Sequence of offline appends through `registrar_pagamento`. -/
def appendAll (s : AppState) : List RawPay → AppState
  | [] => s
  | p :: ps => appendAll (registrarPagamento s false noOracle p.valor p.data p.status).1 ps

/-- Every append in the sequence passes the `saldo_restante <= 0` guard, i.e.
actually appends an entry. -/
def allAccepted : AppState → List RawPay → Bool
  | _, [] => true
  | s, p :: ps =>
    decide (0 < s.saldoRestante)
      && allAccepted (registrarPagamento s false noOracle p.valor p.data p.status).1 ps

/-- Recomputing a ledger directly from raw payments: build bare registros
from the raw amounts and run `_recalcular_agregado_e_table`. -/
def recomputeFromRaw (s : AppState) (ps : List RawPay) : AppState :=
  recalcular { s with registros := ps.map rawRegistro }

/-- Boolean check that the stored `saldo` fields, read in ledger order, never
increase, starting from the given previous balance. -/
def saldosNonInc (prev : ℚ) : List Registro → Bool
  | [] => true
  | e :: rest => decide (e.saldo ≤ prev) && saldosNonInc e.saldo rest

/-- States of the app reachable from startup by payment appends, full
recomputes and undos (the operations the ledger invariants are claimed
for). -/
inductive Reachable (P taxa : ℚ) : AppState → Prop
  | init : Reachable P taxa (initState P taxa)
  | registrar (s : AppState) (online : Bool) (oracle : Nat → CallResult)
      (v : ℚ) (d st : String) :
      Reachable P taxa s →
      Reachable P taxa (registrarPagamento s online oracle v d st).1
  | recalc (s : AppState) : Reachable P taxa s → Reachable P taxa (recalcular s)
  | desfazer (s : AppState) (delOk : Bool) :
      Reachable P taxa s → Reachable P taxa (desfazerUltimo s delOk)

theorem is2dp_round2 (q : ℚ) : Is2dp (round2 q) := ⟨round (100 * q), rfl⟩

theorem is2dp_zero : Is2dp 0 := ⟨0, by norm_num⟩

theorem Is2dp.add {a b : ℚ} (ha : Is2dp a) (hb : Is2dp b) : Is2dp (a + b) := by
  obtain ⟨m, rfl⟩ := ha
  obtain ⟨n, rfl⟩ := hb
  exact ⟨m + n, by push_cast; ring⟩

theorem Is2dp.neg {a : ℚ} (ha : Is2dp a) : Is2dp (-a) := by
  obtain ⟨m, rfl⟩ := ha
  exact ⟨-m, by push_cast; ring⟩

theorem Is2dp.sub {a b : ℚ} (ha : Is2dp a) (hb : Is2dp b) : Is2dp (a - b) := by
  rw [sub_eq_add_neg]
  exact ha.add hb.neg

theorem round2_2dp {q : ℚ} (h : Is2dp q) : round2 q = q := by
  obtain ⟨n, rfl⟩ := h
  have h1 : (100 : ℚ) * ((n : ℚ) / 100) = (n : ℚ) := by ring
  rw [round2, h1, round_intCast]

theorem round2_add_2dp (q : ℚ) {c : ℚ} (h : Is2dp c) :
    round2 (q + c) = round2 q + c := by
  obtain ⟨n, rfl⟩ := h
  have h1 : (100 : ℚ) * (q + (n : ℚ) / 100) = 100 * q + (n : ℚ) := by ring
  rw [round2, h1, round_add_int, round2]
  push_cast
  ring

theorem round2_sub_2dp (q : ℚ) {c : ℚ} (h : Is2dp c) :
    round2 (q - c) = round2 q - c := by
  rw [sub_eq_add_neg, round2_add_2dp q h.neg, sub_eq_add_neg]

theorem round2_zero : round2 0 = 0 := by
  simp [round2]

theorem round2_mono {a b : ℚ} (h : a ≤ b) : round2 a ≤ round2 b := by
  unfold round2
  have h1 : round (100 * a) ≤ round (100 * b) := by
    rw [round_eq, round_eq]
    exact Int.floor_mono (by linarith)
  have h2 : ((round (100 * a) : ℤ) : ℚ) ≤ ((round (100 * b) : ℤ) : ℚ) := by
    exact_mod_cast h1
  linarith

theorem round2_nonneg {a : ℚ} (h : 0 ≤ a) : 0 ≤ round2 a := by
  have := round2_mono h
  rwa [round2_zero] at this

theorem recalcEntry_serverId (taxa sal : ℚ) (reg : Registro) (i : Int) :
    (recalcEntry taxa sal reg i).serverId = reg.serverId := by
  unfold recalcEntry
  dsimp only
  split <;> rfl

theorem recalcEntry_data (taxa sal : ℚ) (reg : Registro) (i : Int) :
    (recalcEntry taxa sal reg i).data = reg.data := by
  unfold recalcEntry
  dsimp only
  split <;> rfl

theorem recalcEntry_status (taxa sal : ℚ) (reg : Registro) (i : Int) :
    (recalcEntry taxa sal reg i).status = reg.status := by
  unfold recalcEntry
  dsimp only
  split <;> rfl

theorem setServerId_none {e : Registro} (h : e.serverId = none) :
    ({ e with serverId := none } : Registro) = e := by
  cases e
  simp_all

/-- Unfolded behaviour of one accepted `registrar_pagamento` call: the
appended registro is exactly the recompute step applied to the raw payment
at the current balance (plus the server id on a successful create), and the
aggregates move to the entry's figures. -/
theorem registrarPagamento_run (s : AppState) (online : Bool)
    (oracle : Nat → CallResult) (v : ℚ) (d st : String)
    (h : ¬ s.saldoRestante ≤ 0) :
    registrarPagamento s online oracle v d st =
      ({ s with
          registros := s.registros ++
            [{ recalcEntry s.taxa s.saldoRestante (rawRegistro ⟨v, d, st⟩)
                 ((s.registros.length : Int) + 1) with
               serverId :=
                 match (if online then some (fazerRequisicao (oracle 0)) else none) with
                 | some (Except.ok id) => some id
                 | _ => none }],
          totalPago := round2 (s.totalPago + max 0
            (recalcEntry s.taxa s.saldoRestante (rawRegistro ⟨v, d, st⟩)
              ((s.registros.length : Int) + 1)).valor),
          saldoRestante :=
            (recalcEntry s.taxa s.saldoRestante (rawRegistro ⟨v, d, st⟩)
              ((s.registros.length : Int) + 1)).saldo },
       match (if online then some (fazerRequisicao (oracle 0)) else none) with
       | some (.error _) => true
       | _ => false) := by
  unfold registrarPagamento recalcEntry rawRegistro
  by_cases hns :
      round2 (s.saldoRestante - round2 (v - round2 (s.saldoRestante * s.taxa))) < 0 <;>
    simp [h, hns]

/-- Offline specialization of the run lemma (no server id attached). -/
theorem registrarPagamento_run_offline (s : AppState) (oracle : Nat → CallResult)
    (p : RawPay) (h : ¬ s.saldoRestante ≤ 0) :
    (registrarPagamento s false oracle p.valor p.data p.status).1 =
      { s with
          registros := s.registros ++
            [recalcEntry s.taxa s.saldoRestante (rawRegistro p)
              ((s.registros.length : Int) + 1)],
          totalPago := round2 (s.totalPago + max 0
            (recalcEntry s.taxa s.saldoRestante (rawRegistro p)
              ((s.registros.length : Int) + 1)).valor),
          saldoRestante :=
            (recalcEntry s.taxa s.saldoRestante (rawRegistro p)
              ((s.registros.length : Int) + 1)).saldo } := by
  rw [registrarPagamento_run s false oracle p.valor p.data p.status h]
  simp only [if_neg Bool.false_ne_true]
  rw [setServerId_none]
  rw [recalcEntry_serverId]
  rfl

/-- Re-running the recompute step on an already recomputed registro, from the
same previous balance, changes nothing: in the clamped case the stored valor
was adjusted so that the second pass lands exactly on a zero new balance. -/
theorem recalcEntry_idem (taxa sal : ℚ) (reg : Registro) (i : Int) :
    recalcEntry taxa sal (recalcEntry taxa sal reg i) i = recalcEntry taxa sal reg i := by
  by_cases hns : round2 (sal - round2 (reg.valor - round2 (sal * taxa))) < 0
  case neg =>
    unfold recalcEntry
    dsimp only
    rw [if_neg hns]
    dsimp only
    rw [if_neg hns]
  case pos =>
    unfold recalcEntry
    dsimp only
    rw [if_pos hns]
    dsimp only
    set j := round2 (sal * taxa) with hj
    set a := round2 (reg.valor - j) with ha
    set ns := round2 (sal - a) with hn
    have h2j : Is2dp j := by rw [hj]; exact is2dp_round2 _
    have h2a : Is2dp a := by rw [ha]; exact is2dp_round2 _
    have h2ns : Is2dp ns := by rw [hn]; exact is2dp_round2 _
    have e1 : round2 (reg.valor + ns) = round2 reg.valor + ns := round2_add_2dp _ h2ns
    have e3 : a = round2 reg.valor - j := by rw [ha]; exact round2_sub_2dp _ h2j
    have hA : round2 (round2 (reg.valor + ns) - j) = round2 (a + ns) := by
      rw [e1, round2_2dp (((is2dp_round2 reg.valor).add h2ns).sub h2j),
        round2_2dp (h2a.add h2ns), e3]
      ring
    have hB : round2 (sal - round2 (a + ns)) = 0 := by
      rw [round2_2dp (h2a.add h2ns), show sal - (a + ns) = sal - a - ns by ring,
        round2_sub_2dp _ h2ns, ← hn]
      exact sub_self ns
    rw [hA, hB]
    rw [if_neg (lt_irrefl (0 : ℚ))]

/-- Replaying the recompute loop on its own output, from the same starting
aggregates, reproduces the same output. -/
theorem recalcLoop_idem (taxa : ℚ) (l : List Registro) :
    ∀ (t sal : ℚ) (i : Int),
      recalcLoop taxa t sal i (recalcLoop taxa t sal i l).2.2 = recalcLoop taxa t sal i l := by
  induction l with
  | nil => intro t sal i; rfl
  | cons reg rest ih =>
    intro t sal i
    simp only [recalcLoop]
    rw [recalcEntry_idem]
    rw [ih]

/-- `_recalcular_agregado_e_table` is idempotent on the whole app state. -/
theorem recalcular_idem (s : AppState) : recalcular (recalcular s) = recalcular s := by
  unfold recalcular
  dsimp only
  rw [recalcLoop_idem]

theorem recalcEntry_saldo_nonneg (taxa sal : ℚ) (reg : Registro) (i : Int) :
    0 ≤ (recalcEntry taxa sal reg i).saldo := by
  unfold recalcEntry
  dsimp only
  split
  · exact le_refl 0
  · next h => exact le_of_not_lt h

theorem recalcEntry_saldo_2dp (taxa sal : ℚ) (reg : Registro) (i : Int) :
    Is2dp (recalcEntry taxa sal reg i).saldo := by
  unfold recalcEntry
  dsimp only
  split
  · exact is2dp_zero
  · exact is2dp_round2 _

/-- For every recomputed registro, stored interest plus stored amortization
equals the stored payment rounded to two decimals (and in the clamped branch
the stored payment already carries two decimals). -/
theorem recalcEntry_sum (taxa sal : ℚ) (reg : Registro) (i : Int) :
    (recalcEntry taxa sal reg i).juros + (recalcEntry taxa sal reg i).amort =
      round2 (recalcEntry taxa sal reg i).valor := by
  unfold recalcEntry
  dsimp only
  set j := round2 (sal * taxa) with hj
  set a := round2 (reg.valor - j) with ha
  set ns := round2 (sal - a) with hn
  have h2j : Is2dp j := by rw [hj]; exact is2dp_round2 _
  have h2a : Is2dp a := by rw [ha]; exact is2dp_round2 _
  have h2ns : Is2dp ns := by rw [hn]; exact is2dp_round2 _
  have e3 : a = round2 reg.valor - j := by rw [ha]; exact round2_sub_2dp _ h2j
  split
  · dsimp only
    rw [round2_2dp (h2a.add h2ns), round2_2dp (is2dp_round2 (reg.valor + ns)),
      round2_add_2dp _ h2ns, e3]
    ring
  · dsimp only
    rw [e3]
    ring

theorem recalcEntry_valor_2dp_of_clamped (taxa sal : ℚ) (reg : Registro) (i : Int)
    (h : round2 (sal - round2 (reg.valor - round2 (sal * taxa))) < 0) :
    Is2dp (recalcEntry taxa sal reg i).valor := by
  unfold recalcEntry
  dsimp only
  rw [if_pos h]
  exact is2dp_round2 _

/-- Every registro in the output of the recompute loop is the image of some
`recalcEntry` step. -/
theorem recalcLoop_shape (taxa : ℚ) (l : List Registro) :
    ∀ (t sal : ℚ) (i : Int) (e : Registro), e ∈ (recalcLoop taxa t sal i l).2.2 →
      ∃ sal2 reg j, e = recalcEntry taxa sal2 reg j := by
  induction l with
  | nil => intro t sal i e he; cases he
  | cons reg rest ih =>
    intro t sal i e he
    simp only [recalcLoop, List.mem_cons] at he
    rcases he with he | he
    · exact ⟨sal, reg, i, he⟩
    · exact ih _ _ _ e he

/-- Any per-registro property that holds of every `recalcEntry` image (and is
insensitive to the server id) holds of every registro of every reachable
state. -/
theorem reachable_entries {P taxa : ℚ} {s : AppState} (Q : Registro → Prop)
    (hQ : ∀ (t2 sal2 : ℚ) (reg : Registro) (j : Int), Q (recalcEntry t2 sal2 reg j))
    (hsid : ∀ (e : Registro) (sid : Option Int), Q e → Q { e with serverId := sid })
    (h : Reachable P taxa s) : ∀ e ∈ s.registros, Q e := by
  induction h with
  | init =>
    intro e he
    simp [initState] at he
  | registrar s₀ online oracle v d st _ ih =>
    intro e he
    by_cases hg : s₀.saldoRestante ≤ 0
    · have heq : (registrarPagamento s₀ online oracle v d st).1 = s₀ := by
        unfold registrarPagamento
        rw [if_pos hg]
      rw [heq] at he
      exact ih e he
    · rw [registrarPagamento_run s₀ online oracle v d st hg] at he
      dsimp only at he
      rw [List.mem_append, List.mem_singleton] at he
      rcases he with he | rfl
      · exact ih e he
      · exact hsid _ _ (hQ _ _ _ _)
  | recalc s₀ _ _ =>
    intro e he
    unfold recalcular at he
    dsimp only at he
    obtain ⟨sal2, reg, j, rfl⟩ := recalcLoop_shape _ _ _ _ _ e he
    exact hQ _ _ _ _
  | desfazer s₀ delOk _ ih =>
    intro e he
    unfold desfazerUltimo at he
    split at he
    · exact ih e he
    · unfold recalcular at he
      dsimp only at he
      obtain ⟨sal2, reg, j, rfl⟩ := recalcLoop_shape _ _ _ _ _ e he
      exact hQ _ _ _ _

/-- When the recomputed entry covers its own interest with its payment, the
new balance cannot exceed the (two-decimal, nonnegative) previous one. -/
theorem recalcEntry_saldo_le (taxa sal : ℚ) (reg : Registro) (i : Int)
    (h0 : 0 ≤ sal) (h2 : Is2dp sal)
    (hcov : (recalcEntry taxa sal reg i).juros ≤ (recalcEntry taxa sal reg i).valor) :
    (recalcEntry taxa sal reg i).saldo ≤ sal := by
  by_cases hc : round2 (sal - round2 (reg.valor - round2 (sal * taxa))) < 0
  · unfold recalcEntry
    dsimp only
    rw [if_pos hc]
    exact h0
  · unfold recalcEntry at hcov ⊢
    dsimp only at hcov ⊢
    rw [if_neg hc] at hcov ⊢
    dsimp only at hcov ⊢
    have ha : 0 ≤ round2 (reg.valor - round2 (sal * taxa)) :=
      round2_nonneg (by linarith)
    rw [round2_sub_2dp _ (is2dp_round2 (reg.valor - round2 (sal * taxa))),
      round2_2dp h2]
    linarith

/-- Provided every recomputed entry covers its interest, the recompute loop
produces a non-increasing balance column, starting from a nonnegative
two-decimal balance. -/
theorem recalcLoop_nonInc (taxa : ℚ) (l : List Registro) :
    ∀ (t sal : ℚ) (i : Int), 0 ≤ sal → Is2dp sal →
      (∀ e ∈ (recalcLoop taxa t sal i l).2.2, e.juros ≤ e.valor) →
      saldosNonInc sal (recalcLoop taxa t sal i l).2.2 = true := by
  induction l with
  | nil =>
    intro t sal i _ _ _
    rfl
  | cons reg rest ih =>
    intro t sal i h0 h2 hcov
    simp only [recalcLoop] at hcov ⊢
    rw [saldosNonInc, Bool.and_eq_true, decide_eq_true_eq]
    refine ⟨recalcEntry_saldo_le _ _ _ _ h0 h2 (hcov _ (List.mem_cons_self _ _)), ?_⟩
    exact ih _ _ _ (recalcEntry_saldo_nonneg _ _ _ _) (recalcEntry_saldo_2dp _ _ _ _)
      (fun e he => hcov e (List.mem_cons_of_mem _ he))

/-- An accepted sequence of incremental appends produces exactly the
registros and aggregates of the recompute loop run over the raw payments,
continuing from the current state. -/
theorem appendAll_eq_recalcLoop (ps : List RawPay) :
    ∀ (s : AppState), allAccepted s ps = true →
      appendAll s ps =
        { s with
            registros := s.registros ++
              (recalcLoop s.taxa s.totalPago s.saldoRestante
                ((s.registros.length : Int) + 1) (ps.map rawRegistro)).2.2,
            totalPago := (recalcLoop s.taxa s.totalPago s.saldoRestante
                ((s.registros.length : Int) + 1) (ps.map rawRegistro)).1,
            saldoRestante := (recalcLoop s.taxa s.totalPago s.saldoRestante
                ((s.registros.length : Int) + 1) (ps.map rawRegistro)).2.1 } := by
  induction ps with
  | nil =>
    intro s _
    simp [appendAll, recalcLoop]
  | cons p ps ih =>
    intro s hacc
    simp only [allAccepted, Bool.and_eq_true, decide_eq_true_eq] at hacc
    obtain ⟨hpos, hrest⟩ := hacc
    have hg : ¬ s.saldoRestante ≤ 0 := not_le.mpr hpos
    simp only [appendAll]
    rw [ih _ hrest, registrarPagamento_run_offline s noOracle p hg]
    simp only [List.map_cons, recalcLoop, List.length_append, List.length_singleton]
    push_cast
    simp [List.append_assoc, add_assoc]

theorem appendAll_append (xs ys : List RawPay) :
    ∀ s : AppState, appendAll s (xs ++ ys) = appendAll (appendAll s xs) ys := by
  induction xs with
  | nil => intro s; rfl
  | cons p xs ih =>
    intro s
    simp only [List.cons_append, appendAll]
    exact ih _

theorem allAccepted_append_left (xs ys : List RawPay) :
    ∀ s : AppState, allAccepted s (xs ++ ys) = true → allAccepted s xs = true := by
  induction xs with
  | nil => intro s _; rfl
  | cons p xs ih =>
    intro s h
    simp only [List.cons_append, allAccepted, Bool.and_eq_true] at h ⊢
    exact ⟨h.1, ih _ h.2⟩

theorem allAccepted_append_right (xs ys : List RawPay) :
    ∀ s : AppState, allAccepted s (xs ++ ys) = true →
      allAccepted (appendAll s xs) ys = true := by
  induction xs with
  | nil => intro s h; exact h
  | cons p xs ih =>
    intro s h
    simp only [List.cons_append, allAccepted, Bool.and_eq_true] at h
    exact ih _ h.2

/-- `_recalcular_agregado_e_table` reads only the initial debt, the rate and
the stored registros; the cached aggregates are reset before the replay. -/
theorem recalcular_congr {s s' : AppState} (h1 : s.dividaInicial = s'.dividaInicial)
    (h2 : s.taxa = s'.taxa) (h3 : s.registros = s'.registros) :
    recalcular s = recalcular s' := by
  unfold recalcular
  dsimp only
  rw [h1, h2, h3]

theorem digit_ne {c : Char} (h : c.isDigit = true) {d : Char} (hd : d.isDigit = false) :
    c ≠ d := by
  intro hcd
  rw [hcd, hd] at h
  cases h

theorem digit_not_ws {c : Char} (h : c.isDigit = true) : pyWhitespace c = false := by
  have h1 : c ≠ ' ' := digit_ne h (by decide)
  have h2 : c ≠ '\t' := digit_ne h (by decide)
  have h3 : c ≠ '\n' := digit_ne h (by decide)
  have h4 : c ≠ '\r' := digit_ne h (by decide)
  simp [pyWhitespace, h1, h2, h3, h4]

theorem dropWhile_eq_self_of {p : Char → Bool} {l : List Char}
    (h : ∀ c ∈ l, p c = false) : l.dropWhile p = l := by
  cases l with
  | nil => rfl
  | cons c cs => simp [List.dropWhile_cons, h c (List.mem_cons_self _ _)]

theorem stripL_eq_self {l : List Char} (h : ∀ c ∈ l, pyWhitespace c = false) :
    stripL l = l := by
  unfold stripL
  rw [dropWhile_eq_self_of h,
    dropWhile_eq_self_of (fun c hc => h c (List.mem_reverse.mp hc)),
    List.reverse_reverse]

theorem removeRS_eq_self {l : List Char} (h : 'R' ∉ l) : removeRS l = l := by
  induction l with
  | nil => rfl
  | cons c cs ih =>
    cases cs with
    | nil => rfl
    | cons d ds =>
      have hc : c ≠ 'R' := fun hx => h (hx ▸ List.mem_cons_self _ _)
      simp only [removeRS, if_neg (fun hand => hc (And.left hand))]
      rw [ih (fun hm => h (List.mem_cons_of_mem _ hm))]

theorem filter_eq_self_of {p : Char → Bool} {l : List Char}
    (h : ∀ c ∈ l, p c = true) : l.filter p = l := by
  induction l with
  | nil => rfl
  | cons c cs ih =>
    rw [List.filter_cons, if_pos (h c (List.mem_cons_self _ _)),
      ih (fun x hx => h x (List.mem_cons_of_mem _ hx))]

theorem map_comma_eq_self {l : List Char} (h : ∀ c ∈ l, c ≠ ',') :
    l.map (fun c => if c == ',' then '.' else c) = l := by
  induction l with
  | nil => rfl
  | cons c cs ih =>
    have hc : (c == ',') = false := by
      simp [h c (List.mem_cons_self _ _)]
    simp only [List.map_cons, hc, Bool.false_eq_true, if_false]
    rw [ih (fun x hx => h x (List.mem_cons_of_mem _ hx))]

theorem contains_eq_false {l : List Char} {a : Char} (h : a ∉ l) :
    l.contains a = false := by
  simpa using h

/-- Dot-decimal inputs are read as their digits concatenated: `_parse_valor`
removes every dot before parsing, so `ddd.ff` becomes the integer `dddff`. -/
theorem parseValorL_dot {l₁ l₂ : List Char} (h₁ : l₁ ≠ []) (h₂ : l₂ ≠ [])
    (hd : ∀ c ∈ l₁ ++ l₂, c.isDigit = true)
    (hpos : 0 < digitsToNat (l₁ ++ l₂)) :
    parseValorL (l₁ ++ '.' :: l₂) = .ok ((digitsToNat (l₁ ++ l₂) : ℚ)) := by
  obtain ⟨c, cs, rfl⟩ : ∃ c cs, l₁ = c :: cs := by
    cases l₁ with
    | nil => exact absurd rfl h₁
    | cons c cs => exact ⟨c, cs, rfl⟩
  have hcd : c.isDigit = true := hd c (by simp)
  have hmem : ∀ x ∈ (c :: cs) ++ '.' :: l₂, x.isDigit = true ∨ x = '.' := by
    intro x hx
    rcases List.mem_append.mp hx with hx | hx
    · exact Or.inl (hd x (List.mem_append.mpr (Or.inl hx)))
    · rcases List.mem_cons.mp hx with rfl | hx
      · exact Or.inr rfl
      · exact Or.inl (hd x (List.mem_append.mpr (Or.inr hx)))
  have hws : ∀ x ∈ (c :: cs) ++ '.' :: l₂, pyWhitespace x = false := by
    intro x hx
    rcases hmem x hx with h | rfl
    · exact digit_not_ws h
    · decide
  have hR : 'R' ∉ (c :: cs) ++ '.' :: l₂ := by
    intro hc
    rcases hmem _ hc with h | h
    · exact absurd h (by decide)
    · exact absurd h (by decide)
  have hsp : ∀ x ∈ (c :: cs) ++ '.' :: l₂, (decide (x ≠ ' ') = true) := by
    intro x hx
    rcases hmem x hx with h | rfl
    · have := digit_ne h (show (' ').isDigit = false by decide)
      simp [this]
    · decide
  unfold parseValorL
  rw [stripL_eq_self hws]
  rw [if_neg (by simp)]
  rw [removeRS_eq_self hR, filter_eq_self_of hsp, stripL_eq_self hws,
    if_neg (by simp)]
  have hfilter : ((c :: cs) ++ '.' :: l₂).filter (fun x => decide (x ≠ '.')) =
      (c :: cs) ++ l₂ := by
    rw [List.filter_append]
    rw [filter_eq_self_of (fun x hx => by
      have := digit_ne (hd x (List.mem_append.mpr (Or.inl hx)))
        (show ('.').isDigit = false by decide)
      simp [this])]
    rw [List.filter_cons]
    rw [if_neg (by simp)]
    rw [filter_eq_self_of (fun x hx => by
      have := digit_ne (hd x (List.mem_append.mpr (Or.inr hx)))
        (show ('.').isDigit = false by decide)
      simp [this])]
  rw [hfilter]
  rw [map_comma_eq_self (fun x hx =>
    digit_ne (hd x hx) (show (',').isDigit = false by decide))]
  have hcore : pyFloatL ((c :: cs) ++ l₂) =
      some ((digitsToNat ((c :: cs) ++ l₂) : ℚ)) := by
    unfold pyFloatL
    rw [if_neg (by
      have := digit_ne hcd (show ('-').isDigit = false by decide)
      simp [this])]
    rw [if_neg (by
      have := digit_ne hcd (show ('+').isDigit = false by decide)
      simp [this])]
    unfold pyFloatCore
    have hdot : '.' ∉ (c :: cs) ++ l₂ := fun hc =>
      absurd (hd _ hc) (by decide)
    rw [contains_eq_false hdot]
    rw [if_neg (by simp)]
    rw [if_pos (by
      rw [Bool.and_eq_true]
      exact ⟨rfl, List.all_eq_true.mpr hd⟩)]
  dsimp only
  rw [hcore]
  dsimp only
  rw [if_neg (not_le.mpr (by exact_mod_cast hpos))]

/-- The per-entry arithmetic of the recompute loop coincides with the
LedgerEngine step exactly as the spec words it. -/
theorem recalcEntry_spec (taxa sal : ℚ) (reg : Registro) (i : Int) :
    ((recalcEntry taxa sal reg i).juros, (recalcEntry taxa sal reg i).amort,
      (recalcEntry taxa sal reg i).saldo, (recalcEntry taxa sal reg i).valor) =
      specLedgerStep sal taxa reg.valor := by
  by_cases hc : round2 (sal - round2 (reg.valor - round2 (sal * taxa))) < 0 <;>
    simp [recalcEntry, specLedgerStep, hc]

theorem registrarPagamento_divida (s : AppState) (online : Bool)
    (oracle : Nat → CallResult) (v : ℚ) (d st : String) :
    (registrarPagamento s online oracle v d st).1.dividaInicial = s.dividaInicial := by
  unfold registrarPagamento
  split <;> rfl

theorem registrarPagamento_taxa (s : AppState) (online : Bool)
    (oracle : Nat → CallResult) (v : ℚ) (d st : String) :
    (registrarPagamento s online oracle v d st).1.taxa = s.taxa := by
  unfold registrarPagamento
  split <;> rfl

theorem appendAll_divida (ps : List RawPay) :
    ∀ s : AppState, (appendAll s ps).dividaInicial = s.dividaInicial := by
  induction ps with
  | nil => intro s; rfl
  | cons p ps ih =>
    intro s
    simp only [appendAll]
    rw [ih, registrarPagamento_divida]

theorem appendAll_taxa (ps : List RawPay) :
    ∀ s : AppState, (appendAll s ps).taxa = s.taxa := by
  induction ps with
  | nil => intro s; rfl
  | cons p ps ih =>
    intro s
    simp only [appendAll]
    rw [ih, registrarPagamento_taxa]

/-- The startup-load loop only ever extends the list it starts from; the
registros carried by a conversion failure are a prefix extension. -/
theorem carregarLoop_error_extends (l : List RegServidor) :
    ∀ (acc kept : List Registro), carregarLoop acc l = .error kept →
      ∃ rest, kept = acc ++ rest := by
  induction l with
  | nil =>
    intro acc kept h
    simp [carregarLoop] at h
  | cons r rest ih =>
    intro acc kept h
    cases hcv : convRegistro acc.length r with
    | ok reg =>
      simp only [carregarLoop, hcv] at h
      obtain ⟨tail, htail⟩ := ih _ _ h
      exact ⟨reg :: tail, by simp [htail]⟩
    | error msg =>
      simp only [carregarLoop, hcv] at h
      cases h
      exact ⟨[], by simp⟩

/-- When every listed record failed to delete, the collected failures count
the whole list. -/
theorem errCount_all_delErr {outcomes : List RecOutcome}
    (h : ∀ o ∈ outcomes, ∃ m, o = RecOutcome.delErr m) :
    (outcomes.filterMap fun o =>
      match o with
      | RecOutcome.delErr m => some m
      | _ => none).length = outcomes.length := by
  induction outcomes with
  | nil => rfl
  | cons o os ih =>
    obtain ⟨m, rfl⟩ := h o (List.mem_cons_self _ _)
    simp only [List.filterMap_cons, List.length_cons]
    rw [ih (fun x hx => h x (List.mem_cons_of_mem _ hx))]

/-- `delete_todos_registros` raises exactly when there were records and every
one of them failed. -/
theorem deleteTodos_complete_failure {outcomes : List RecOutcome}
    (hne : outcomes ≠ []) (hall : ∀ o ∈ outcomes, ∃ m, o = RecOutcome.delErr m) :
    ∃ msg, deleteTodosRegistros outcomes = .error msg := by
  unfold deleteTodosRegistros
  have hlen := errCount_all_delErr hall
  have hpos : 0 < outcomes.length := List.length_pos.mpr hne
  rw [if_neg (by
    rw [List.isEmpty_iff, ← List.length_eq_zero, hlen]
    omega)]
  rw [if_neg (by rw [hlen]; omega)]
  exact ⟨_, rfl⟩

/-- With at least one failure but fewer failures than records,
`delete_todos_registros` returns silently. -/
theorem deleteTodos_parcial {outcomes : List RecOutcome}
    (h0 : 0 < (outcomes.filterMap fun o =>
      match o with
      | RecOutcome.delErr m => some m
      | _ => none).length)
    (h1 : (outcomes.filterMap fun o =>
      match o with
      | RecOutcome.delErr m => some m
      | _ => none).length < outcomes.length) :
    deleteTodosRegistros outcomes = .ok () := by
  unfold deleteTodosRegistros
  rw [if_neg (by
    rw [List.isEmpty_iff, ← List.length_eq_zero]
    omega)]
  rw [if_pos h1]

/-- C1 counterexample: with principal 100.00, rate 0.01 and a single payment
of 1000.00 the code records interest 1.00, amortization 100.00, balance 0.00
and amountPaid 101.00 — not the amortization 99.00 / amountPaid 100.00 the
claim asserts. -/
theorem claim1_counterexample :
    ((registrarPagamento (initState 100 (1/100)) false noOracle 1000 "01/01/2025"
        "Pago").1.registros.map fun e => (e.juros, e.amort, e.saldo, e.valor)) =
      [(1, 100, 0, 101)] ∧
    ¬ ((registrarPagamento (initState 100 (1/100)) false noOracle 1000 "01/01/2025"
        "Pago").1.registros.map fun e => (e.amort, e.valor)) = [(99, 100)] := by
  decide

/-- C1 (amended): every accepted append computes the appended entry exactly by
the spec's clamp algorithm — interest = round2(B×r), amortization =
round2(paid − interest), newBalance = round2(B − amortization), and when
newBalance < 0 it is added to both the amortization and the recorded
amountPaid, both re-rounded, with the balance clamped to 0; on the
overpayment example (principal 100.00, rate 0.01, payment 1000.00) this
yields interest 1.00, amortization 100.00, balance 0.00 and recorded
amountPaid 101.00 (not 99.00 / 100.00). -/
theorem claim1_ledger_step (s : AppState) (online : Bool) (oracle : Nat → CallResult)
    (v : ℚ) (d st : String) (h : 0 < s.saldoRestante) :
    (∃ e : Registro,
        (registrarPagamento s online oracle v d st).1.registros = s.registros ++ [e] ∧
        (e.juros, e.amort, e.saldo, e.valor) = specLedgerStep s.saldoRestante s.taxa v) ∧
      specLedgerStep 100 (1/100) 1000 = (1, 100, 0, 101) := by
  refine ⟨?_, by decide⟩
  have hg : ¬ s.saldoRestante ≤ 0 := not_le.mpr h
  rw [registrarPagamento_run s online oracle v d st hg]
  exact ⟨_, rfl, recalcEntry_spec s.taxa s.saldoRestante (rawRegistro ⟨v, d, st⟩)
    ((s.registros.length : Int) + 1)⟩

theorem claim1_witness :
    (∃ e : Registro,
        (registrarPagamento (initState 50000 (1/100)) false noOracle 1000 "01/01/2025"
          "Pago").1.registros = (initState 50000 (1/100)).registros ++ [e] ∧
        (e.juros, e.amort, e.saldo, e.valor) =
          specLedgerStep (initState 50000 (1/100)).saldoRestante
            (initState 50000 (1/100)).taxa 1000) ∧
      specLedgerStep 100 (1/100) 1000 = (1, 100, 0, 101) :=
  claim1_ledger_step (initState 50000 (1/100)) false noOracle 1000 "01/01/2025" "Pago"
    (by norm_num [initState])

/-- C2 counterexample: two payments of 100.00 against a 50000.00 debt at 1%
(each below the month's interest) leave stored balances 50400.00 and then
50804.00 — the remainingBalance column increases, refuting monotone
non-increase exactly in the payment-below-interest case the claim includes. -/
theorem claim2_counterexample :
    ((registrarPagamento ((registrarPagamento (initState 50000 (1/100)) false noOracle
          100 "01/01/2025" "Pago").1) false noOracle 100 "01/02/2025"
        "Pago").1.registros.map fun e => e.saldo) = [50400, 50804] ∧
    saldosNonInc 50000
      ((registrarPagamento ((registrarPagamento (initState 50000 (1/100)) false noOracle
          100 "01/01/2025" "Pago").1) false noOracle 100 "01/02/2025"
        "Pago").1.registros) = false := by
  decide

/-- C2 (amended): in every state reachable by appends, recomputes and undos,
every stored remainingBalance is ≥ 0; the balance column of a recomputed
ledger is non-increasing only under the extra hypothesis that every entry's
payment covers its interest (with a nonnegative two-decimal principal) — a
payment smaller than the month's interest strictly increases the balance. -/
theorem claim2_balances :
    (∀ (P taxa : ℚ) (s : AppState), Reachable P taxa s →
        ∀ e ∈ s.registros, 0 ≤ e.saldo) ∧
    (∀ s : AppState, 0 ≤ s.dividaInicial → Is2dp s.dividaInicial →
        (∀ e ∈ (recalcular s).registros, e.juros ≤ e.valor) →
        saldosNonInc s.dividaInicial (recalcular s).registros = true) := by
  constructor
  · intro P taxa s h
    exact reachable_entries (fun e => 0 ≤ e.saldo)
      (fun t2 sal2 reg j => recalcEntry_saldo_nonneg t2 sal2 reg j)
      (fun e sid hq => hq) h
  · intro s h0 h2 hcov
    unfold recalcular at hcov ⊢
    dsimp only at hcov ⊢
    exact recalcLoop_nonInc _ _ _ _ _ h0 h2 hcov

theorem claim2_witness :
    (∀ e ∈ ((registrarPagamento (initState 50000 (1/100)) false noOracle 1000
        "01/01/2025" "Pago").1).registros, 0 ≤ e.saldo) ∧
    saldosNonInc 50000
      (recalcular ⟨50000, 1/100, [⟨0, "01/01/2025", 1000, 0, 0, 0, "Pago", none⟩],
        0, 50000⟩).registros = true :=
  ⟨claim2_balances.1 50000 (1/100) _
      (Reachable.registrar _ false noOracle 1000 "01/01/2025" "Pago" Reachable.init),
    claim2_balances.2 ⟨50000, 1/100, [⟨0, "01/01/2025", 1000, 0, 0, 0, "Pago", none⟩],
        0, 50000⟩ (by norm_num) ⟨5000000, by norm_num⟩ (by decide)⟩

/-- C3 counterexample: a payment of 2500.503 (three decimals; the parser does
not round) against a 50000.00 debt at 1% is stored with valor 2500.503 —
an unrounded entry field — while juros 500.00 + amort 2000.50 = 2500.50
differs from the stored amountPaid. -/
theorem claim3_counterexample :
    ((registrarPagamento (initState 50000 (1/100)) false noOracle (2500503/1000)
        "01/01/2025" "Pago").1.registros.map fun e => (e.juros, e.amort, e.valor)) =
      [(500, 4001/2, 2500503/1000)] ∧
    ¬ (∀ e ∈ (registrarPagamento (initState 50000 (1/100)) false noOracle (2500503/1000)
        "01/01/2025" "Pago").1.registros, e.juros + e.amort = e.valor) := by
  decide

/-- C3 (amended): in every state reachable by appends, recomputes and undos,
every stored entry satisfies interest + amortization = round2(amountPaid);
the equality with the stored amountPaid itself holds whenever the stored
amountPaid is a two-decimal value (guaranteed by the clamp branch), but the
plain branch stores the raw payment unrounded, which breaks exact equality
for sub-cent payments. -/
theorem claim3_sum_invariant (P taxa : ℚ) (s : AppState) (h : Reachable P taxa s) :
    ∀ e ∈ s.registros,
      e.juros + e.amort = round2 e.valor ∧
      (Is2dp e.valor → e.juros + e.amort = e.valor) := by
  refine reachable_entries _ ?_ ?_ h
  · intro t2 sal2 reg j
    refine ⟨recalcEntry_sum t2 sal2 reg j, ?_⟩
    intro h2
    rw [recalcEntry_sum t2 sal2 reg j, round2_2dp h2]
  · intro e sid hq
    exact hq

theorem claim3_witness :
    (500 : ℚ) + 500 = round2 1000 ∧ (Is2dp (1000 : ℚ) → (500 : ℚ) + 500 = 1000) :=
  claim3_sum_invariant 50000 (1/100) _
    (Reachable.registrar _ false noOracle 1000 "01/01/2025" "Pago" Reachable.init)
    ⟨1, "01/01/2025", 1000, 500, 500, 49500, "Pago", none⟩ (by decide)

/-- C4: for every principal > 0, rate in (0,1) and whatever list of stored
payments, the full-replay recompute is idempotent on the entire app state:
a second run reproduces every entry field (mes, juros, amort, saldo and the
possibly clamp-mutated valor) and both aggregates. -/
theorem claim4_recompute_idempotent (s : AppState)
    (hP : 0 < s.dividaInicial) (hr0 : 0 < s.taxa) (hr1 : s.taxa < 1) :
    recalcular (recalcular s) = recalcular s :=
  recalcular_idem s

theorem claim4_witness :
    recalcular (recalcular ⟨50000, 1/100,
        [⟨0, "01/01/2025", 100000, 0, 0, 0, "Pago", none⟩,
          ⟨0, "01/02/2025", 123, 0, 0, 0, "Pago", none⟩], 0, 50000⟩) =
      recalcular ⟨50000, 1/100,
        [⟨0, "01/01/2025", 100000, 0, 0, 0, "Pago", none⟩,
          ⟨0, "01/02/2025", 123, 0, 0, 0, "Pago", none⟩], 0, 50000⟩ :=
  claim4_recompute_idempotent ⟨50000, 1/100,
      [⟨0, "01/01/2025", 100000, 0, 0, 0, "Pago", none⟩,
        ⟨0, "01/02/2025", 123, 0, 0, 0, "Pago", none⟩], 0, 50000⟩
    (by norm_num) (by norm_num) (by norm_num)

/-- Reduction of `limpar_historico` when the bulk delete raised: every
classification branch reports an error and leaves the state untouched. -/
theorem limpar_run_error {s : AppState} {outcomes : List RecOutcome} {msg : String}
    (h : deleteTodosRegistros outcomes = .error msg) :
    (limparHistorico s true true true outcomes).1 = s ∧
    (limparHistorico s true true true outcomes).2 ≠ LimparReport.success := by
  unfold limparHistorico
  simp only [h, Bool.not_true, Bool.false_eq_true, if_false]
  constructor
  · split
    · rfl
    · split <;> rfl
  · split
    · simp
    · split <;> simp

/-- Reduction of `limpar_historico` when the bulk delete returned silently:
the local state is cleared and plain success is reported. -/
theorem limpar_run_ok {s : AppState} {outcomes : List RecOutcome}
    (h : deleteTodosRegistros outcomes = .ok ()) :
    limparHistorico s true true true outcomes = (clearedState s, .success) := by
  unfold limparHistorico
  simp only [h, Bool.not_true, Bool.false_eq_true, if_false]

/-- C5 counterexample: loading two remote records where the second carries a
non-numeric valor keeps the first converted record in the local ledger (a
proper nonempty prefix of the two listed records) and drops to offline mode —
the startup sync is not all-or-nothing. -/
theorem claim5_counterexample :
    ((carregarRegistrosIniciais (initState 50000 (1/100)) true
        (.ok [⟨some 1, some 1, some "01/01/2025", .num 100, .num 500, .num (-400),
                .num 50400, some "Pago"⟩,
              ⟨some 2, some 2, some "01/02/2025", .junk "abc", .missing, .missing,
                .missing, some "Pago"⟩])).1.registros.length = 1) ∧
    ((carregarRegistrosIniciais (initState 50000 (1/100)) true
        (.ok [⟨some 1, some 1, some "01/01/2025", .num 100, .num 500, .num (-400),
                .num 50400, some "Pago"⟩,
              ⟨some 2, some 2, some "01/02/2025", .junk "abc", .missing, .missing,
                .missing, some "Pago"⟩])).2 = false) := by
  decide

/-- C5 (amended): startup sync is all-or-nothing only for the probe and the
listing — a failed probe or an exception while listing leaves the (empty)
local ledger untouched and sets Degraded; but a conversion failure while
processing the listed records keeps exactly the records already appended (a
prefix extension of the previous ledger), skips the aggregate recompute and
sets Degraded, so the local ledger can end up holding a proper prefix of the
remote records. -/
theorem claim5_startup_sync :
    (∀ (s : AppState) (lr : Except String (List RegServidor)),
        carregarRegistrosIniciais s false lr = (s, false)) ∧
    (∀ (s : AppState) (msg : String),
        carregarRegistrosIniciais s true (.error msg) = (s, false)) ∧
    (∀ (s : AppState) (regs : List RegServidor) (kept : List Registro),
        regs ≠ [] →
        carregarLoop s.registros (sortById regs) = .error kept →
        carregarRegistrosIniciais s true (.ok regs) =
          ({ s with registros := kept }, false) ∧
        ∃ rest, kept = s.registros ++ rest) := by
  refine ⟨fun s lr => rfl, fun s msg => rfl, ?_⟩
  intro s regs kept hne hloop
  refine ⟨?_, carregarLoop_error_extends _ _ _ hloop⟩
  unfold carregarRegistrosIniciais
  rw [if_neg (by simp)]
  have hempty : regs.isEmpty = false := by
    cases regs with
    | nil => exact absurd rfl hne
    | cons r rs => rfl
  simp only [hempty, hloop, Bool.false_eq_true, if_false]

theorem claim5_witness :
    carregarRegistrosIniciais (initState 50000 (1/100)) true
        (.ok [⟨some 1, some 1, some "01/01/2025", .num 100, .num 500, .num (-400),
                .num 50400, some "Pago"⟩,
              ⟨some 2, some 2, some "01/02/2025", .junk "abc", .missing, .missing,
                .missing, some "Pago"⟩]) =
      ({ initState 50000 (1/100) with
          registros := [⟨1, "01/01/2025", 100, 500, -400, 50400, "Pago", some 1⟩] },
        false) ∧
    ∃ rest, [(⟨1, "01/01/2025", 100, 500, -400, 50400, "Pago", some 1⟩ : Registro)] =
      (initState 50000 (1/100)).registros ++ rest :=
  claim5_startup_sync.2.2 (initState 50000 (1/100))
    [⟨some 1, some 1, some "01/01/2025", .num 100, .num 500, .num (-400),
        .num 50400, some "Pago"⟩,
      ⟨some 2, some 2, some "01/02/2025", .junk "abc", .missing, .missing,
        .missing, some "Pago"⟩]
    [⟨1, "01/01/2025", 100, 500, -400, 50400, "Pago", some 1⟩]
    (by simp) (by decide)

/-- C7 counterexample: bulk clear over 5 remote records where 2 deletes fail
clears the local ledger but reports exactly the same plain success as a run
where all 5 deletes succeed — no partial-success warning and no failure count
is surfaced. -/
theorem claim7_counterexample :
    limparHistorico ⟨50000, 1/100,
        [⟨1, "01/01/2025", 1000, 500, 500, 49500, "Pago", some 1⟩], 1000, 49500⟩
        true true true
        [.delErr "Erro HTTP 400: Bad Request", .delErr "Erro HTTP 400: Bad Request",
          .delOk, .delOk, .delOk] =
      (clearedState ⟨50000, 1/100,
        [⟨1, "01/01/2025", 1000, 500, 500, 49500, "Pago", some 1⟩], 1000, 49500⟩,
        .success) ∧
    limparHistorico ⟨50000, 1/100,
        [⟨1, "01/01/2025", 1000, 500, 500, 49500, "Pago", some 1⟩], 1000, 49500⟩
        true true true [.delOk, .delOk, .delOk, .delOk, .delOk] =
      (clearedState ⟨50000, 1/100,
        [⟨1, "01/01/2025", 1000, 500, 500, 49500, "Pago", some 1⟩], 1000, 49500⟩,
        .success) := by
  decide

/-- C7 (amended): bulk clear collects per-record failures; when every listed
record fails the operation fails and the local ledger and aggregates are left
untouched, but when the failure count is strictly between 0 and the total the
local state IS cleared while the result is reported as an unqualified
success, indistinguishable from a full success — no partial-success warning
naming the failure count reaches the user (the helper only raises on complete
failure). -/
theorem claim7_bulk_clear :
    (∀ (s : AppState) (outcomes : List RecOutcome), outcomes ≠ [] →
        (∀ o ∈ outcomes, ∃ m, o = RecOutcome.delErr m) →
        (limparHistorico s true true true outcomes).1 = s ∧
        (limparHistorico s true true true outcomes).2 ≠ LimparReport.success) ∧
    (∀ (s : AppState) (outcomes : List RecOutcome),
        0 < (outcomes.filterMap fun o =>
          match o with
          | RecOutcome.delErr m => some m
          | _ => none).length →
        (outcomes.filterMap fun o =>
          match o with
          | RecOutcome.delErr m => some m
          | _ => none).length < outcomes.length →
        limparHistorico s true true true outcomes = (clearedState s, .success)) := by
  constructor
  · intro s outcomes hne hall
    obtain ⟨msg, hmsg⟩ := deleteTodos_complete_failure hne hall
    exact limpar_run_error hmsg
  · intro s outcomes h0 h1
    exact limpar_run_ok (deleteTodos_parcial h0 h1)

theorem claim7_witness :
    ((limparHistorico ⟨50000, 1/100, [], 1000, 49500⟩ true true true
        [.delErr "Servidor fechou a conexão. Tente novamente."]).1 =
      ⟨50000, 1/100, [], 1000, 49500⟩ ∧
      (limparHistorico ⟨50000, 1/100, [], 1000, 49500⟩ true true true
        [.delErr "Servidor fechou a conexão. Tente novamente."]).2 ≠
        LimparReport.success) ∧
    limparHistorico ⟨50000, 1/100, [], 1000, 49500⟩ true true true
        [.delErr "Erro HTTP 400: Bad Request", .delOk] =
      (clearedState ⟨50000, 1/100, [], 1000, 49500⟩, .success) :=
  ⟨claim7_bulk_clear.1 ⟨50000, 1/100, [], 1000, 49500⟩
      [.delErr "Servidor fechou a conexão. Tente novamente."] (by simp)
      (by
        intro o ho
        simp at ho
        exact ⟨_, ho⟩),
    claim7_bulk_clear.2 ⟨50000, 1/100, [], 1000, 49500⟩
      [.delErr "Erro HTTP 400: Bad Request", .delOk] (by decide) (by decide)⟩

/-- C9: after the user confirms, `reiniciar` always empties the local
registros, zeroes totalPago and resets the balance to the initial debt,
regardless of the remote outcome; a remote error while online is caught and
only surfaces a warning dialog — unlike bulk clear, remote failure never
blocks this local mutation. -/
theorem claim9_reiniciar (s : AppState) (online : Bool) (remote : Except String Unit) :
    (reiniciar s true online remote).1.registros = [] ∧
    (reiniciar s true online remote).1.totalPago = 0 ∧
    (reiniciar s true online remote).1.saldoRestante = s.dividaInicial ∧
    (∀ msg : String, (reiniciar s true online (.error msg)).2 = online) := by
  refine ⟨rfl, rfl, rfl, ?_⟩
  intro msg
  cases online <;> rfl

/-- C10: the monetary parser removes every dot as a thousands separator and
takes only the comma as decimal separator, so any dot-decimal digit input
parses as its digits concatenated (e.g. "2500.50" gives 250050.0); it raises
a validation error for empty input and for any parsed value ≤ 0; and the
accepted value is returned unrounded ("2500,505" gives exactly 2500.505,
which differs from its two-decimal rounding). -/
theorem claim10_parse :
    (∀ l₁ l₂ : List Char, l₁ ≠ [] → l₂ ≠ [] →
        (∀ c ∈ l₁ ++ l₂, c.isDigit = true) → 0 < digitsToNat (l₁ ++ l₂) →
        parseValorL (l₁ ++ '.' :: l₂) = .ok ((digitsToNat (l₁ ++ l₂) : ℚ))) ∧
    parseValor "2500.50" = .ok 250050 ∧
    parseValor "2500,505" = .ok (2500505/1000) ∧
    (2500505/1000 : ℚ) ≠ round2 (2500505/1000) ∧
    parseValor "" = .error "Informe um valor." ∧
    parseValor "0" = .error "Valor inválido. Use formato: 2500 ou 2500,50" ∧
    parseValor "-5" = .error "Valor inválido. Use formato: 2500 ou 2500,50" := by
  refine ⟨fun l₁ l₂ h1 h2 hd hpos => parseValorL_dot h1 h2 hd hpos,
    ?_, ?_, ?_, ?_, ?_, ?_⟩ <;> decide

theorem claim10_witness :
    parseValorL (['2', '5', '0', '0'] ++ '.' :: ['5', '0']) =
      .ok ((digitsToNat (['2', '5', '0', '0'] ++ ['5', '0']) : ℚ)) :=
  claim10_parse.1 ['2', '5', '0', '0'] ['5', '0'] (by simp) (by simp)
    (by decide) (by decide)

/-- C8: appending raw payments p1..pn (each accepted by the settled-balance
guard) and then undoing the last one yields exactly the state recomputed
directly from the raw payments p1..p(n-1) — every entry field and both
aggregates — regardless of whether the remote delete of the popped entry
succeeds or fails. -/
theorem claim8_undo_recompute (P taxa : ℚ) (ps : List RawPay) (hne : ps ≠ [])
    (hacc : allAccepted (initState P taxa) ps = true) (delOk : Bool) :
    desfazerUltimo (appendAll (initState P taxa) ps) delOk =
      recomputeFromRaw (initState P taxa) ps.dropLast := by
  obtain ⟨qs, p, rfl⟩ := (List.eq_nil_or_concat ps).resolve_left hne
  rw [List.concat_eq_append] at hacc ⊢
  have hqs : allAccepted (initState P taxa) qs = true :=
    allAccepted_append_left qs [p] _ hacc
  have hlast := allAccepted_append_right qs [p] _ hacc
  simp only [allAccepted, Bool.and_eq_true, decide_eq_true_eq] at hlast
  have hg : ¬ (appendAll (initState P taxa) qs).saldoRestante ≤ 0 := not_le.mpr hlast.1
  rw [appendAll_append]
  simp only [appendAll]
  rw [registrarPagamento_run_offline _ noOracle p hg]
  rw [appendAll_eq_recalcLoop qs _ hqs]
  unfold desfazerUltimo recomputeFromRaw
  simp only [initState, List.length_nil, Nat.cast_zero, zero_add, List.nil_append,
    List.dropLast_concat]
  rw [if_neg (by simp)]
  unfold recalcular
  dsimp only
  rw [recalcLoop_idem]

theorem claim8_witness :
    desfazerUltimo (appendAll (initState 50000 (1/100))
        [⟨1000, "01/01/2025", "Pago"⟩, ⟨100000, "01/02/2025", "Pago"⟩]) true =
      recomputeFromRaw (initState 50000 (1/100))
        ([⟨1000, "01/01/2025", "Pago"⟩,
          ⟨100000, "01/02/2025", "Pago"⟩] : List RawPay).dropLast :=
  claim8_undo_recompute 50000 (1/100)
    [⟨1000, "01/01/2025", "Pago"⟩, ⟨100000, "01/02/2025", "Pago"⟩]
    (by simp) (by decide) true

theorem fazerRequisicao_ok_iff {c : CallResult} {id : Int} :
    fazerRequisicao c = .ok id ↔ c = .ok id := by
  cases c <;> simp [fazerRequisicao]

/-- Only the connection-reset failure produces a message containing
"fechou a conexão" — the retry guard of `delete_registro` fires for no other
failure class. -/
theorem fazerRequisicao_reset_of_sub {c : CallResult} {e : String}
    (h : fazerRequisicao c = .error e)
    (hsub : containsSubstr e "fechou a conexão" = true) : c = .connReset := by
  cases c with
  | ok id => simp [fazerRequisicao] at h
  | httpErr400 =>
    simp only [fazerRequisicao, Except.error.injEq] at h
    subst h
    exact absurd hsub (by decide)
  | connRefused =>
    simp only [fazerRequisicao, Except.error.injEq] at h
    subst h
    exact absurd hsub (by decide)
  | connReset => rfl

theorem deleteRegistroAux_calls_lower (oracle : Nat → CallResult) :
    ∀ (rem t : Nat), t ≤ (deleteRegistroAux oracle rem t).2.1 := by
  intro rem
  induction rem with
  | zero => intro t; exact le_refl t
  | succ n ih =>
    intro t
    simp only [deleteRegistroAux]
    cases hfr : fazerRequisicao (oracle t) with
    | ok id =>
      dsimp only
      omega
    | error e =>
      dsimp only
      split
      · dsimp only
        have := ih (t + 1)
        omega
      · dsimp only
        omega

theorem deleteRegistroAux_calls_lower_strict (oracle : Nat → CallResult)
    (rem t : Nat) (h : 1 ≤ rem) : t + 1 ≤ (deleteRegistroAux oracle rem t).2.1 := by
  cases rem with
  | zero => omega
  | succ n =>
    simp only [deleteRegistroAux]
    cases hfr : fazerRequisicao (oracle t) with
    | ok id =>
      dsimp only
      omega
    | error e =>
      dsimp only
      split
      · dsimp only
        have := deleteRegistroAux_calls_lower oracle n (t + 1)
        omega
      · dsimp only
        omega

theorem deleteRegistroAux_calls_le (oracle : Nat → CallResult) :
    ∀ (rem t : Nat), (deleteRegistroAux oracle rem t).2.1 ≤ t + rem := by
  intro rem
  induction rem with
  | zero => intro t; simp [deleteRegistroAux]
  | succ n ih =>
    intro t
    simp only [deleteRegistroAux]
    cases hfr : fazerRequisicao (oracle t) with
    | ok id =>
      dsimp only
      omega
    | error e =>
      dsimp only
      split
      · dsimp only
        have := ih (t + 1)
        omega
      · dsimp only
        omega

theorem deleteRegistroAux_resets (oracle : Nat → CallResult) :
    ∀ (rem t i : Nat), t ≤ i → i + 1 < (deleteRegistroAux oracle rem t).2.1 →
      oracle i = .connReset := by
  intro rem
  induction rem with
  | zero =>
    intro t i hti hi
    dsimp only [deleteRegistroAux] at hi
    omega
  | succ n ih =>
    intro t i hti hi
    simp only [deleteRegistroAux] at hi
    cases hfr : fazerRequisicao (oracle t) with
    | ok id =>
      rw [hfr] at hi
      dsimp only at hi
      omega
    | error e =>
      rw [hfr] at hi
      dsimp only at hi
      split at hi
      · next hguard =>
        rw [Bool.and_eq_true] at hguard
        rcases Nat.eq_or_lt_of_le hti with rfl | hlt
        · exact fazerRequisicao_reset_of_sub hfr hguard.1
        · exact ih (t + 1) i hlt (by dsimp only at hi; exact hi)
      · dsimp only at hi
        omega

theorem deleteRegistroAux_delays (oracle : Nat → CallResult) :
    ∀ (rem t : Nat), rem + t = MAX_RETRIES →
      (deleteRegistroAux oracle rem t).2.2 =
        (List.range' (t + 1) ((deleteRegistroAux oracle rem t).2.1 - 1 - t)).map
          (fun j : Nat => RETRY_DELAY * (j : ℚ)) := by
  intro rem
  induction rem with
  | zero =>
    intro t hinv
    simp [deleteRegistroAux]
  | succ n ih =>
    intro t hinv
    simp only [deleteRegistroAux]
    cases hfr : fazerRequisicao (oracle t) with
    | ok id =>
      dsimp only
      simp
    | error e =>
      dsimp only
      split
      · next hguard =>
        rw [Bool.and_eq_true, decide_eq_true_eq] at hguard
        have hn : 1 ≤ n := by
          have := hguard.2
          simp only [MAX_RETRIES] at this hinv
          omega
        have hinv2 : n + (t + 1) = MAX_RETRIES := by omega
        have hlow := deleteRegistroAux_calls_lower_strict oracle n (t + 1) hn
        dsimp only
        rw [ih (t + 1) hinv2]
        have hm : (deleteRegistroAux oracle n (t + 1)).2.1 - 1 - t =
            ((deleteRegistroAux oracle n (t + 1)).2.1 - 1 - (t + 1)) + 1 := by
          omega
        rw [hm, List.range'_succ, List.map_cons]
        congr 1
        push_cast
        ring
      · dsimp only
        simp

theorem deleteRegistroAux_result (oracle : Nat → CallResult) :
    ∀ (rem t : Nat), 1 ≤ rem → rem + t = MAX_RETRIES →
      ((deleteRegistroAux oracle rem t).1 = .ok () ↔
        ∃ id, oracle ((deleteRegistroAux oracle rem t).2.1 - 1) = .ok id) := by
  intro rem
  induction rem with
  | zero =>
    intro t h1 _
    omega
  | succ n ih =>
    intro t h1 hinv
    simp only [deleteRegistroAux]
    cases hfr : fazerRequisicao (oracle t) with
    | ok id =>
      dsimp only
      simp only [Nat.add_sub_cancel]
      constructor
      · intro hx
        exact ⟨id, fazerRequisicao_ok_iff.mp hfr⟩
      · intro hx
        trivial
    | error e =>
      dsimp only
      split
      · next hguard =>
        rw [Bool.and_eq_true, decide_eq_true_eq] at hguard
        have hn : 1 ≤ n := by
          have := hguard.2
          simp only [MAX_RETRIES] at this hinv
          omega
        exact ih (t + 1) hn (by omega)
      · dsimp only
        simp only [Nat.add_sub_cancel]
        constructor
        · intro hcl
          cases hcl
        · rintro ⟨id, hid⟩
          rw [hid] at hfr
          simp [fazerRequisicao] at hfr

/-- C6 counterexample: the transport resets the connection on the first call
and would succeed on the very next one — within the claimed 3-attempt retry
policy the entry would acquire a remoteId — yet the code performs no retry on
create: the appended entry has no server id and the sync warning fires. -/
theorem claim6_counterexample :
    ((registrarPagamento (initState 50000 (1/100)) true
        (fun n => if n = 0 then .connReset else .ok 7) 1000 "01/01/2025"
        "Pago").1.registros.map fun e => e.serverId) = [none] ∧
    (registrarPagamento (initState 50000 (1/100)) true
        (fun n => if n = 0 then .connReset else .ok 7) 1000 "01/01/2025" "Pago").2 =
      true ∧
    (fun n => if n = 0 then CallResult.connReset else CallResult.ok 7) 1 =
      CallResult.ok 7 := by
  decide

/-- C6 (amended): the remote create of an online append is attempted exactly
once — its whole outcome depends only on the first transport call, so no
retry can happen; on failure the entry stays in the local ledger with no
server id, the ledger math (entry fields and both aggregates) is exactly the
offline append, and the warning fires.  The bounded retry policy the claim
describes (up to MAX_RETRIES = 3 attempts, retried only on connection-reset
failures, with delays growing linearly as attempt × 0.5 s) is implemented in
`delete_registro`, not in the create path. -/
theorem claim6_create_not_retried :
    (∀ (s : AppState) (v : ℚ) (d st : String) (oracle oracle2 : Nat → CallResult),
        oracle 0 = oracle2 0 →
        registrarPagamento s true oracle v d st =
          registrarPagamento s true oracle2 v d st) ∧
    (∀ (s : AppState) (v : ℚ) (d st : String) (oracle : Nat → CallResult),
        0 < s.saldoRestante →
        ∃ e : Registro,
          (registrarPagamento s true oracle v d st).1.registros =
            s.registros ++ [e] ∧
          e.serverId = (match oracle 0 with
            | CallResult.ok id => some id
            | _ => none) ∧
          (registrarPagamento s true oracle v d st).2 = (match oracle 0 with
            | CallResult.ok _ => false
            | _ => true) ∧
          (registrarPagamento s true oracle v d st).1.totalPago =
            (registrarPagamento s false noOracle v d st).1.totalPago ∧
          (registrarPagamento s true oracle v d st).1.saldoRestante =
            (registrarPagamento s false noOracle v d st).1.saldoRestante ∧
          ({ e with serverId := none } : Registro) =
            recalcEntry s.taxa s.saldoRestante (rawRegistro ⟨v, d, st⟩)
              ((s.registros.length : Int) + 1)) ∧
    (∀ oracle : Nat → CallResult,
        (deleteRegistro oracle).2.1 ≤ MAX_RETRIES ∧
        (∀ i : Nat, i + 1 < (deleteRegistro oracle).2.1 → oracle i = .connReset) ∧
        (deleteRegistro oracle).2.2 =
          (List.range' 1 ((deleteRegistro oracle).2.1 - 1)).map
            (fun j : Nat => RETRY_DELAY * (j : ℚ)) ∧
        ((deleteRegistro oracle).1 = .ok () ↔
          ∃ id, oracle ((deleteRegistro oracle).2.1 - 1) = CallResult.ok id)) := by
  refine ⟨?_, ?_, ?_⟩
  · intro s v d st oracle oracle2 h
    unfold registrarPagamento
    rw [h]
  · intro s v d st oracle hpos
    have hg : ¬ s.saldoRestante ≤ 0 := not_le.mpr hpos
    rw [registrarPagamento_run s true oracle v d st hg,
      registrarPagamento_run s false noOracle v d st hg]
    refine ⟨_, rfl, ?_, ?_, rfl, rfl, ?_⟩
    · cases ho : oracle 0 <;> simp [fazerRequisicao, ho]
    · cases ho : oracle 0 <;> simp [fazerRequisicao, ho]
    · have h0 : (recalcEntry s.taxa s.saldoRestante (rawRegistro ⟨v, d, st⟩)
          ((s.registros.length : Int) + 1)).serverId = none := by
        rw [recalcEntry_serverId]
        rfl
      exact setServerId_none h0
  · intro oracle
    refine ⟨?_, ?_, ?_, ?_⟩
    · have := deleteRegistroAux_calls_le oracle MAX_RETRIES 0
      simpa using this
    · intro i hi
      exact deleteRegistroAux_resets oracle MAX_RETRIES 0 i (Nat.zero_le i) hi
    · have := deleteRegistroAux_delays oracle MAX_RETRIES 0 (by simp)
      simpa using this
    · exact deleteRegistroAux_result oracle MAX_RETRIES 0 (by norm_num [MAX_RETRIES])
        (by simp)

theorem claim6_witness :
    ∃ e : Registro,
      (registrarPagamento (initState 50000 (1/100)) true
          (fun _ => CallResult.connReset) 1000 "01/01/2025" "Pago").1.registros =
        (initState 50000 (1/100)).registros ++ [e] ∧
      e.serverId = (match (fun _ => CallResult.connReset : Nat → CallResult) 0 with
        | CallResult.ok id => some id
        | _ => none) ∧
      (registrarPagamento (initState 50000 (1/100)) true
          (fun _ => CallResult.connReset) 1000 "01/01/2025" "Pago").2 =
        (match (fun _ => CallResult.connReset : Nat → CallResult) 0 with
          | CallResult.ok _ => false
          | _ => true) ∧
      (registrarPagamento (initState 50000 (1/100)) true
          (fun _ => CallResult.connReset) 1000 "01/01/2025" "Pago").1.totalPago =
        (registrarPagamento (initState 50000 (1/100)) false noOracle 1000 "01/01/2025"
          "Pago").1.totalPago ∧
      (registrarPagamento (initState 50000 (1/100)) true
          (fun _ => CallResult.connReset) 1000 "01/01/2025" "Pago").1.saldoRestante =
        (registrarPagamento (initState 50000 (1/100)) false noOracle 1000 "01/01/2025"
          "Pago").1.saldoRestante ∧
      ({ e with serverId := none } : Registro) =
        recalcEntry (initState 50000 (1/100)).taxa
          (initState 50000 (1/100)).saldoRestante
          (rawRegistro ⟨1000, "01/01/2025", "Pago"⟩)
          (((initState 50000 (1/100)).registros.length : Int) + 1) :=
  claim6_create_not_retried.2.1 (initState 50000 (1/100)) 1000 "01/01/2025" "Pago"
    (fun _ => CallResult.connReset) (by norm_num [initState])

end FinSim
